import Mathlib

/-!
# KEDA stock scaler and scale handler: embedding and properties

Shallow embedding of `pkg/scalers/stock_scaler.go` and of the scale-handler
decision functions exercised by `pkg/scaling/scale_handler_test.go`.

Conventions of the embedding.

* A Go `error` is an `Option String`: `none` is `nil`, `some msg` is a non-nil
  error carrying its message.  A Go function returning `(T, error)` where the
  value is `nil` exactly when the error is set is an `Except String T`.
* A Go call that may end in a run-time panic returns a `GoResult`.
* `int` is 64 bits wide, so the conversions `int(x)` and `int64(x)` between
  `int` and `int64` are lossless and are the identity on `Int`.
* The outside world (HTTP server, clock) is an explicit argument.
* Functions of the Go standard library and of other packages that the scaler
  calls (`strconv.Atoi`, `url.ParseRequestURI`, `kedautil.CreateHTTPClient`,
  `kedautil.NormalizeString`, the constant `externalMetricType`) are fields of
  the parameter `Lib`; every general theorem holds for all values of it.
-/

namespace Keda

/-! ## Go run-time outcomes -/

/-- Outcome of a Go call: it returns a value or the goroutine panics. -/
inductive GoResult (α : Type) where
  | ret (a : α)
  | panic (msg : String)
  deriving DecidableEq, Repr

/-- A Go `error` value; `none` is `nil`. -/
abbrev GoError := Option String

/-! ## Kubernetes API types used by the scaler -/

/-- Formats of `resource.Quantity`. -/
inductive Format where
  | DecimalExponent
  | BinarySI
  | DecimalSI
  deriving DecidableEq, Repr

/-- A `resource.Quantity` holding an `int64` amount in a given format. -/
structure Quantity where
  value : Int
  format : Format
  deriving DecidableEq, Repr

/-- The constructor `resource.NewQuantity(value, format)`. -/
def NewQuantity (value : Int) (format : Format) : Quantity :=
  { value := value, format := format }

/-- The constant `v2beta2.AverageValueMetricType`. -/
def AverageValueMetricType : String := "AverageValue"

/-- The type `v2beta2.MetricIdentifier` (the selector is never set here). -/
structure MetricIdentifier where
  Name : String
  deriving DecidableEq, Repr

/-- The type `v2beta2.MetricTarget`; unset fields keep their zero value. -/
structure MetricTarget where
  Type_ : String := ""
  Value : Option Quantity := none
  AverageValue : Option Quantity := none
  AverageUtilization : Option Int := none
  deriving DecidableEq, Repr

/-- The type `v2beta2.ExternalMetricSource`. -/
structure ExternalMetricSource where
  Metric : MetricIdentifier
  Target : MetricTarget
  deriving DecidableEq, Repr

/-- The type `v2beta2.MetricSpec`, restricted to the external source. -/
structure MetricSpec where
  Type_ : String := ""
  External : Option ExternalMetricSource := none
  deriving DecidableEq, Repr

/-- The type `external_metrics.ExternalMetricValue`; the timestamp is a clock reading. -/
structure ExternalMetricValue where
  MetricName : String
  Value : Quantity
  Timestamp : Nat
  deriving DecidableEq, Repr

/-! ## Scaler data (stock_scaler.go, lines 20-35) -/

/-- An `http.Client`, of which only the timeout is configured. -/
structure HTTPClient where
  Timeout : Int
  deriving DecidableEq, Repr

/-- The struct `stockMetadata`. -/
structure stockMetadata where
  threshold : Int
  host : String
  deriving DecidableEq, Repr

/-- The struct `stockScaler`. -/
structure stockScaler where
  metadata : stockMetadata
  httpClient : HTTPClient
  deriving DecidableEq, Repr

/-- The struct `stockData`; the unused `float64` field `SentimentScore` is left out. -/
structure stockData where
  NumberComments : Int
  Sentiment : String := ""
  Ticker : String := ""
  deriving DecidableEq, Repr

/-- The fields of `ScalerConfig` read by the stock scaler.  `TriggerMetadata k`
is the Go lookup `val, ok := config.TriggerMetadata[k]`: `none` when `ok` is false. -/
structure ScalerConfig where
  TriggerMetadata : String → Option String
  GlobalHTTPTimeout : Int

/-- Functions and constants from outside `stock_scaler.go`, taken as parameters. -/
structure Lib where
  /-- Result of `strconv.Atoi`. -/
  Atoi : String → Except String Int
  /-- Result of `url.ParseRequestURI`; the parsed URL itself is discarded by its caller. -/
  ParseRequestURI : String → Except String Unit
  /-- Result of `kedautil.CreateHTTPClient`. -/
  CreateHTTPClient : Int → HTTPClient
  /-- Result of `kedautil.NormalizeString`. -/
  NormalizeString : String → String
  /-- The package constant `externalMetricType`. -/
  externalMetricType : String

/-! ## The outside world -/

/-- What happens during one run of `getJSONData`, in the order of its three steps. -/
inductive FetchOutcome where
  /-- The call `s.httpClient.Get` returns an error (a timeout, a refused connection). -/
  | getError (err : String)
  /-- The call `ioutil.ReadAll` on the response body returns an error. -/
  | readError (err : String)
  /-- The call `json.Unmarshal` returns an error. -/
  | unmarshalError (err : String)
  /-- The body is the JSON value `null`: `json.Unmarshal` returns `nil` and leaves the slice as it was. -/
  | unmarshalNull
  /-- The body is a JSON array, decoded into the slice. -/
  | unmarshalled (records : List stockData)
  deriving DecidableEq, Repr

/-- The server side: the outcome of a fetch by a given client from a given host. -/
abbrev Network := HTTPClient → String → FetchOutcome

/-! ## stock_scaler.go -/

/-- The function `parseStockMetadata` (lines 52-76). -/
def parseStockMetadata (lib : Lib) (config : ScalerConfig) : Except String stockMetadata :=
  let meta0 : stockMetadata := { threshold := 0, host := "" }
  let afterThreshold : Except String stockMetadata :=
    match config.TriggerMetadata "threshold" with
    | some val =>
      if val ≠ "" then
        match lib.Atoi val with
        | .error err => .error ("threshold: error parsing threshold " ++ err)
        | .ok threshold => .ok { meta0 with threshold := threshold }
      else .ok meta0
    | none => .ok meta0
  match afterThreshold with
  | .error err => .error err
  | .ok meta1 =>
    match config.TriggerMetadata "host" with
    | some val =>
      match lib.ParseRequestURI val with
      | .error err => .error ("invalid URL: " ++ err)
      | .ok _ => .ok { meta1 with host := val }
    | none => .error "no host URI given"

/-- The function `NewStockScaler` (lines 37-50). -/
def NewStockScaler (lib : Lib) (config : ScalerConfig) : Except String stockScaler :=
  let httpClient := lib.CreateHTTPClient config.GlobalHTTPTimeout
  match parseStockMetadata lib config with
  | .error err => .error ("error parsing stock metadata: " ++ err)
  | .ok stockMetadata => .ok { metadata := stockMetadata, httpClient := httpClient }

/-- The method `getJSONData` (lines 120-136): the slice behind `out` after the
call, and the returned error. -/
def getJSONData (net : Network) (s : stockScaler) (out : List stockData) :
    List stockData × GoError :=
  match net s.httpClient s.metadata.host with
  | .getError err => (out, some err)
  | .readError err => (out, some err)
  | .unmarshalError err => (out, some err)
  | .unmarshalNull => (out, none)
  | .unmarshalled records => (records, none)

/-- The method `getStock` (lines 138-152). -/
def getStock (net : Network) (s : stockScaler) : GoResult (Int × GoError) :=
  let sDat : List stockData := []
  let (sDat, err) := getJSONData net s sDat
  match err with
  | some e => .ret (100, some e)
  | none =>
    match sDat[0]? with
    | none => .panic "runtime error: index out of range [0] with length 0"
    | some d => .ret (d.NumberComments, none)

/-- The method `IsActive` (lines 78-86). -/
def IsActive (net : Network) (s : stockScaler) : GoResult (Bool × GoError) :=
  match getStock net s with
  | .panic msg => .panic msg
  | .ret (numComments, err) =>
    match err with
    | some e => .ret (false, some e)
    | none => .ret (decide (numComments > s.metadata.threshold), none)

/-- The method `GetMetricSpecForScaling` (lines 88-101). -/
def GetMetricSpecForScaling (lib : Lib) (s : stockScaler) : List MetricSpec :=
  let targetMetricValue := NewQuantity s.metadata.threshold Format.DecimalSI
  let externalMetric : ExternalMetricSource :=
    { Metric := { Name := lib.NormalizeString "stock" },
      Target := { Type_ := AverageValueMetricType, AverageValue := some targetMetricValue } }
  let metricSpec : MetricSpec :=
    { External := some externalMetric, Type_ := lib.externalMetricType }
  [metricSpec]

/-- The method `GetMetrics` (lines 103-114); `now` is the reading of `metav1.Now()`.
The selector argument is not used by the method. -/
def GetMetrics (net : Network) (now : Nat) (s : stockScaler) (metricName : String) :
    GoResult (List ExternalMetricValue × GoError) :=
  match getStock net s with
  | .panic msg => .panic msg
  | .ret (comments, _) =>
    let metric : ExternalMetricValue :=
      { MetricName := metricName,
        Value := NewQuantity comments Format.DecimalSI,
        Timestamp := now }
    .ret ([] ++ [metric], none)

/-- The method `Close` (lines 116-118). -/
def Close (_s : stockScaler) : GoError := none

/-! ## A concrete library, used to run the definitions on examples -/

/-- Value of a string of decimal digits read after the accumulator `acc`;
`none` when a character is not a decimal digit. -/
def digitsValue : List Char → Nat → Option Nat
  | [], acc => some acc
  | c :: cs, acc =>
    if 48 ≤ c.toNat ∧ c.toNat ≤ 57 then digitsValue cs (acc * 10 + (c.toNat - 48)) else none

/-- The function `strconv.Atoi` of the Go standard library for a 64-bit `int`:
an optional sign followed by one or more decimal digits, within the range of
the type.  The error texts omit Go quoting of the input. -/
def goAtoi (s : String) : Except String Int :=
  let syntaxError := "strconv.Atoi: parsing \"" ++ s ++ "\": invalid syntax"
  let rangeError := "strconv.Atoi: parsing \"" ++ s ++ "\": value out of range"
  match s.toList with
  | [] => .error syntaxError
  | c :: cs =>
    let digits := if c = '-' ∨ c = '+' then cs else c :: cs
    match digits with
    | [] => .error syntaxError
    | d :: ds =>
      match digitsValue (d :: ds) 0 with
      | none => .error syntaxError
      | some n =>
        if c = '-' then
          if n ≤ 2 ^ 63 then .ok (-(n : Int)) else .error rangeError
        else
          if n < 2 ^ 63 then .ok (n : Int) else .error rangeError

/-- Characters that `url.ParseRequestURI` accepts unescaped in a host and in a path. -/
def plainURLChar (c : Char) : Bool :=
  c.isAlphanum || c = '/' || c = '.' || c = '-' || c = '_'

/-- A stand-in for `url.ParseRequestURI` on a fragment of its domain.  It
rejects the empty string and strings that neither start with a slash nor carry
a scheme, and accepts `http://` URLs and absolute paths made of plain
characters, as the Go function does.  Every other string is rejected here,
which the Go function need not do; the examples only use inputs of the first
kinds. -/
def sampleParseRequestURI (rawurl : String) : Except String Unit :=
  match rawurl.toList with
  | [] => .error "parse \"\": empty url"
  | 'h' :: 't' :: 't' :: 'p' :: ':' :: '/' :: '/' :: rest =>
    if rest.all plainURLChar then .ok ()
    else .error ("parse \"" ++ rawurl ++ "\": not handled")
  | '/' :: rest =>
    if rest.all plainURLChar then .ok ()
    else .error ("parse \"" ++ rawurl ++ "\": not handled")
  | _ => .error ("parse \"" ++ rawurl ++ "\": invalid URI for request")

/-- The function `kedautil.NormalizeString`: the characters `/`, `.`, `:` and
`%` become `-`. -/
def sampleNormalizeString (s : String) : String :=
  String.mk (s.toList.map fun c => if c = '/' ∨ c = '.' ∨ c = ':' ∨ c = '%' then '-' else c)

/-- A concrete library for the examples. -/
def goLib : Lib :=
  { Atoi := goAtoi,
    ParseRequestURI := sampleParseRequestURI,
    CreateHTTPClient := fun timeout => { Timeout := timeout },
    NormalizeString := sampleNormalizeString,
    externalMetricType := "External" }

/-- A trigger-metadata map given by its list of entries. -/
def metadataOf (entries : List (String × String)) : String → Option String :=
  fun key => entries.lookup key

/-- The scaler configuration with the given trigger metadata and a timeout of 3 s. -/
def configOf (entries : List (String × String)) : ScalerConfig :=
  { TriggerMetadata := metadataOf entries, GlobalHTTPTimeout := 3000000000 }

/-- A scaler with the given threshold, polling `http://example.com/stock`. -/
def sampleScaler (threshold : Int) : stockScaler :=
  { metadata := { threshold := threshold, host := "http://example.com/stock" },
    httpClient := { Timeout := 3000000000 } }

/-- A network in which every fetch has the same outcome. -/
def constNetwork (outcome : FetchOutcome) : Network := fun _ _ => outcome

/-! ## Scale handler (scale_handler_test.go and the functions it exercises)

The test helpers are in the source and are translated from it.  The functions
under test, `getTargetAverageValue`, `isScaledObjectActive` and
`isScaledJobActive`, are defined in `pkg/scaling/scale_handler.go`, which is
not among the source files at hand; they are modelled from the specification.
Queue lengths, targets and replica counts are natural numbers (the
specification keeps them non-negative) and are not bounded by a machine width.
-/

/-- The test helper `createMetricSpec` (scale_handler_test.go, lines 115-124). -/
def createMetricSpec (averageValue : Int) : MetricSpec :=
  let qty := NewQuantity averageValue Format.DecimalSI
  { External := some { Metric := { Name := "" }, Target := { AverageValue := some qty } } }

/-- The `averageValue` target quantity of a metric spec, if it has one. -/
def averageValueOf (spec : MetricSpec) : Option Int :=
  match spec.External with
  | some ext =>
    match ext.Target.AverageValue with
    | some qty => some qty.value
    | none => none
  | none => none

/-- Modelled from the spec: `getTargetAverageValue` of `scale_handler.go`, which
is not in the source at hand.  Section 4.2: the arithmetic mean of the
`averageValue` target quantities across all provided specs, using integer
(floor) division, and 0 for an empty input.  A spec without an `averageValue`
target, on which the specification is silent, adds nothing to the sum. -/
def getTargetAverageValue (specs : List MetricSpec) : Int :=
  let targetAverageValue := (specs.map fun spec => (averageValueOf spec).getD 0).sum
  let count : Int := specs.length
  if count ≠ 0 then targetAverageValue / count else 0

/-- A scaler as the continuous evaluator sees it: what its `IsActive` probe returns. -/
structure ProbedScaler where
  probe : Bool × GoError
  deriving DecidableEq, Repr

/-- Number of calls a scaler received during one evaluation, per method, as the
mock scalers of the tests count them. -/
structure Calls where
  IsActive : Nat
  GetMetricSpecForScaling : Nat
  Close : Nat
  deriving DecidableEq, Repr

/-- The loop of the continuous evaluator from the state `(isActive, isError)`:
the final state and the calls made on each scaler, in order. -/
def isScaledObjectActiveLoop :
    List ProbedScaler → Bool → Bool → (Bool × Bool) × List Calls
  | [], isActive, isError => ((isActive, isError), [])
  | scaler :: rest, isActive, isError =>
    if isActive || isError then
      let (result, calls) := isScaledObjectActiveLoop rest isActive isError
      (result, { IsActive := 0, GetMetricSpecForScaling := 0, Close := 1 } :: calls)
    else
      match scaler.probe with
      | (_, some _) =>
        let (result, calls) := isScaledObjectActiveLoop rest isActive true
        (result, { IsActive := 1, GetMetricSpecForScaling := 0, Close := 1 } :: calls)
      | (true, none) =>
        let (result, calls) := isScaledObjectActiveLoop rest true isError
        (result, { IsActive := 1, GetMetricSpecForScaling := 2, Close := 1 } :: calls)
      | (false, none) =>
        let (result, calls) := isScaledObjectActiveLoop rest isActive isError
        (result, { IsActive := 1, GetMetricSpecForScaling := 0, Close := 1 } :: calls)

/-- Modelled from the spec: `isScaledObjectActive` of `scale_handler.go`, which
is not in the source at hand.  Section 4.3: the scalers are visited in order;
once an active scaler has been found the probe is skipped for the following
ones; on a probe error `isError` is recorded and the remaining scalers are only
closed; a scaler found active has its metric spec retrieved (twice, the count
the mock of `TestCheckScaledObjectFindFirstActiveIgnoringOthers` expects); every
scaler is closed.  The result is `(isActive, isError)` with the calls received
by each scaler. -/
def isScaledObjectActive (scalers : List ProbedScaler) : (Bool × Bool) × List Calls :=
  isScaledObjectActiveLoop scalers false false

/-- The deciding probes of section 4.3: the part of the list from the first
scaler whose probe is not `(false, nil)`. -/
def fromDeciding (scalers : List ProbedScaler) : List ProbedScaler :=
  scalers.dropWhile fun scaler => scaler.probe == (false, none)

/-- The aggregation strategies of a scaled job (section 3). -/
inductive AggregationStrategy where
  | max
  | min
  | sum
  | average
  deriving DecidableEq, Repr

/-- A scaler as the job aggregator sees it when no call fails: the value its
`GetMetrics` reports, the `averageValue` of its metric spec and the result of
its `IsActive` probe (the arguments of the test helper `createScaler`). -/
structure JobScaler where
  queueLength : Nat
  averageValue : Nat
  isActive : Bool
  deriving DecidableEq, Repr

/-- Contribution of one scaler to the aggregation. -/
structure scalerMetrics where
  queueLength : Nat
  maxValue : Nat
  deriving DecidableEq, Repr

/-- Division of naturals rounded towards positive infinity. -/
def divideWithCeil (x y : Nat) : Nat := (x + y - 1) / y

/-- Section 4.4, step 2: the contribution of an active scaler, with
`perScalerMax = ceil(queueLength / targetAverageValue)`. -/
def metricsOf (scaler : JobScaler) : scalerMetrics :=
  { queueLength := scaler.queueLength,
    maxValue := divideWithCeil scaler.queueLength scaler.averageValue }

/-- The contribution with the greatest `maxValue`, the earliest one among equals. -/
def pickMax : List scalerMetrics → Option scalerMetrics
  | [] => none
  | m :: ms =>
    match pickMax ms with
    | none => some m
    | some best => if best.maxValue > m.maxValue then some best else some m

/-- The contribution with the smallest `maxValue`, the earliest one among equals. -/
def pickMin : List scalerMetrics → Option scalerMetrics
  | [] => none
  | m :: ms =>
    match pickMin ms with
    | none => some m
    | some best => if best.maxValue < m.maxValue then some best else some m

/-- The scalers that take part in the aggregation: the active ones. -/
def activeScalers (scalers : List JobScaler) : List JobScaler :=
  scalers.filter fun scaler => scaler.isActive

/-- Section 4.4, step 4: queue length and target aggregated over the
contributions of the active scalers, by strategy (`max` when unset). -/
def aggregateMetrics (strategy : Option AggregationStrategy) (active : List scalerMetrics) :
    Nat × Nat :=
  let queueLengthSum := (active.map fun m => m.queueLength).sum
  let maxValueSum := (active.map fun m => m.maxValue).sum
  match strategy.getD AggregationStrategy.max with
  | .max =>
    match pickMax active with
    | some m => (m.queueLength, m.maxValue)
    | none => (0, 0)
  | .min =>
    match pickMin active with
    | some m => (m.queueLength, m.maxValue)
    | none => (0, 0)
  | .sum => (queueLengthSum, maxValueSum)
  | .average =>
    if active.length ≠ 0 then
      (divideWithCeil queueLengthSum active.length, maxValueSum / active.length)
    else (0, 0)

/-- Modelled from the spec: `isScaledJobActive` of `scale_handler.go`, which is
not in the source at hand.  Section 4.4: inactive scalers are excluded; the job
is active iff some scaler is; queue length and target are aggregated over the
active scalers by the strategy (`max` when unset); the target is capped at the
maximum replica count.  The result is `(isActive, queueLength, targetReplicaValue)`. -/
def isScaledJobActive (scalers : List JobScaler) (strategy : Option AggregationStrategy)
    (maxReplicaCount : Nat) : Bool × Nat × Nat :=
  let active := (activeScalers scalers).map metricsOf
  let isActive := !active.isEmpty
  let aggregate := aggregateMetrics strategy active
  (isActive, aggregate.1, Nat.min aggregate.2 maxReplicaCount)

/-- The ceiling of section 4.4, step 2, taken in the rationals:
`ceil(queueLength / targetAverageValue)`. -/
def perScalerMax (scaler : JobScaler) : Nat :=
  ⌈(scaler.queueLength : ℚ) / (scaler.averageValue : ℚ)⌉₊

/-- The four scalers of `TestIsScaledJobActive` (scale_handler_test.go, lines 164-167). -/
def testScalers : List JobScaler :=
  [ { queueLength := 20, averageValue := 1, isActive := true },
    { queueLength := 10, averageValue := 2, isActive := true },
    { queueLength := 5, averageValue := 3, isActive := true },
    { queueLength := 7, averageValue := 4, isActive := false } ]

/-! ## Properties of the stock scaler -/

/-- Reading of `getStock` when `getJSONData` returns an error: the placeholder
100 together with that error. -/
theorem getStock_of_fetch_error (net : Network) (s : stockScaler) (err : String)
    (h : net s.httpClient s.metadata.host = .getError err ∨
      net s.httpClient s.metadata.host = .readError err ∨
      net s.httpClient s.metadata.host = .unmarshalError err) :
    getStock net s = .ret (100, some err) := by
  rcases h with h | h | h <;> simp [getStock, getJSONData, h]

/-- Reading of `getStock` when the body decodes to a non-empty list of records. -/
theorem getStock_of_records (net : Network) (s : stockScaler) (d : stockData)
    (rest : List stockData)
    (h : net s.httpClient s.metadata.host = .unmarshalled (d :: rest)) :
    getStock net s = .ret (d.NumberComments, none) := by
  simp [getStock, getJSONData, h]

/-- Result of `parseStockMetadata` in terms of the two lookups it makes. -/
theorem parseStockMetadata_congr (lib : Lib) (config config' : ScalerConfig)
    (ht : config'.TriggerMetadata "threshold" = config.TriggerMetadata "threshold")
    (hh : config'.TriggerMetadata "host" = config.TriggerMetadata "host") :
    parseStockMetadata lib config' = parseStockMetadata lib config := by
  simp only [parseStockMetadata, ht, hh]

/-- C1, evaluation of the code on a failed fetch: whichever of the three steps
of `getJSONData` fails, `GetMetrics` drops the error of `getStock` and returns
a nil error with a single metric whose value is 100, not 0. -/
theorem GetMetrics_failed_fetch_reports_100 (now : Nat) (s : stockScaler)
    (metricName err : String) :
    GetMetrics (constNetwork (.getError err)) now s metricName =
        .ret ([{ MetricName := metricName, Value := { value := 100, format := .DecimalSI },
                 Timestamp := now }], none) ∧
      GetMetrics (constNetwork (.readError err)) now s metricName =
        .ret ([{ MetricName := metricName, Value := { value := 100, format := .DecimalSI },
                 Timestamp := now }], none) ∧
      GetMetrics (constNetwork (.unmarshalError err)) now s metricName =
        .ret ([{ MetricName := metricName, Value := { value := 100, format := .DecimalSI },
                 Timestamp := now }], none) := by
  refine ⟨?_, ?_, ?_⟩ <;> rfl

/-- C2, counterexample: the threshold value is present and is not a valid
integer (it is the empty string, which `strconv.Atoi` rejects), the host is
valid, and `NewStockScaler` returns a scaler, with threshold 0. -/
theorem NewStockScaler_empty_threshold_accepted :
    (configOf [("threshold", ""), ("host", "http://example.com/stock")]).TriggerMetadata
        "threshold" = some "" ∧
      (∃ e, goLib.Atoi "" = .error e) ∧
      NewStockScaler goLib (configOf [("threshold", ""), ("host", "http://example.com/stock")])
        = .ok (sampleScaler 0) :=
  ⟨rfl, ⟨_, rfl⟩, rfl⟩

/-- C2, amended: when the threshold value is present, not empty and rejected by
`strconv.Atoi`, or the host value is missing or rejected by
`url.ParseRequestURI`, both `parseStockMetadata` and `NewStockScaler` return
an error and no scaler. -/
theorem NewStockScaler_config_error (lib : Lib) (config : ScalerConfig)
    (h : (∃ val e, config.TriggerMetadata "threshold" = some val ∧ val ≠ "" ∧
            lib.Atoi val = .error e) ∨
      config.TriggerMetadata "host" = none ∨
      (∃ val e, config.TriggerMetadata "host" = some val ∧
            lib.ParseRequestURI val = .error e)) :
    (∃ e, parseStockMetadata lib config = .error e) ∧
      (∃ e, NewStockScaler lib config = .error e) := by
  have key : ∃ e, parseStockMetadata lib config = .error e := by
    rcases h with ⟨val, e, hv, hne, ha⟩ | hn | ⟨val, e, hv, hp⟩
    · simp [parseStockMetadata, hv, hne, ha]
    · cases ht : config.TriggerMetadata "threshold" with
      | none => simp [parseStockMetadata, ht, hn]
      | some val =>
        by_cases hne : val = ""
        · simp [parseStockMetadata, ht, hn, hne]
        · cases ha : lib.Atoi val with
          | error e => simp [parseStockMetadata, ht, hne, ha]
          | ok n => simp [parseStockMetadata, ht, hn, hne, ha]
    · cases ht : config.TriggerMetadata "threshold" with
      | none => simp [parseStockMetadata, ht, hv, hp]
      | some tv =>
        by_cases hne : tv = ""
        · simp [parseStockMetadata, ht, hv, hp, hne]
        · cases ha : lib.Atoi tv with
          | error e => simp [parseStockMetadata, ht, hne, ha]
          | ok n => simp [parseStockMetadata, ht, hv, hp, hne, ha]
  obtain ⟨e, he⟩ := key
  exact ⟨⟨e, he⟩, by simp [NewStockScaler, he]⟩

/-- C2, amended, on an example: a threshold of `abc` with a valid host. -/
theorem NewStockScaler_config_error_witness :
    ((∃ val e, (configOf [("threshold", "abc"), ("host", "http://example.com/stock")]).TriggerMetadata
          "threshold" = some val ∧ val ≠ "" ∧ goLib.Atoi val = .error e) ∨
      (configOf [("threshold", "abc"), ("host", "http://example.com/stock")]).TriggerMetadata
          "host" = none ∨
      (∃ val e, (configOf [("threshold", "abc"), ("host", "http://example.com/stock")]).TriggerMetadata
          "host" = some val ∧ goLib.ParseRequestURI val = .error e)) ∧
    ((∃ e, parseStockMetadata goLib
        (configOf [("threshold", "abc"), ("host", "http://example.com/stock")]) = .error e) ∧
      (∃ e, NewStockScaler goLib
        (configOf [("threshold", "abc"), ("host", "http://example.com/stock")]) = .error e)) :=
  ⟨Or.inl ⟨"abc", _, rfl, by decide, rfl⟩,
    NewStockScaler_config_error goLib _ (Or.inl ⟨"abc", _, rfl, by decide, rfl⟩)⟩

/-- C3: when the fetch fails at any of the three steps of `getJSONData`,
`IsActive` returns `false` together with that error, so it never returns a
boolean with a nil error. -/
theorem IsActive_failed_fetch (net : Network) (s : stockScaler) (err : String)
    (h : net s.httpClient s.metadata.host = .getError err ∨
      net s.httpClient s.metadata.host = .readError err ∨
      net s.httpClient s.metadata.host = .unmarshalError err) :
    IsActive net s = .ret (false, some err) ∧ ∀ b, IsActive net s ≠ .ret (b, none) := by
  have hs := getStock_of_fetch_error net s err h
  have hr : IsActive net s = .ret (false, some err) := by simp [IsActive, hs]
  refine ⟨hr, fun b hb => ?_⟩
  rw [hr] at hb
  simp at hb

/-- C3 on an example: a request that times out. -/
theorem IsActive_failed_fetch_witness :
    (constNetwork (.getError "context deadline exceeded") (sampleScaler 5).httpClient
          (sampleScaler 5).metadata.host = .getError "context deadline exceeded" ∨
      constNetwork (.getError "context deadline exceeded") (sampleScaler 5).httpClient
          (sampleScaler 5).metadata.host = .readError "context deadline exceeded" ∨
      constNetwork (.getError "context deadline exceeded") (sampleScaler 5).httpClient
          (sampleScaler 5).metadata.host = .unmarshalError "context deadline exceeded") ∧
    (IsActive (constNetwork (.getError "context deadline exceeded")) (sampleScaler 5)
        = .ret (false, some "context deadline exceeded") ∧
      ∀ b, IsActive (constNetwork (.getError "context deadline exceeded")) (sampleScaler 5)
        ≠ .ret (b, none)) :=
  ⟨Or.inl rfl, IsActive_failed_fetch _ _ _ (Or.inl rfl)⟩

/-- C7: `GetMetricSpecForScaling` takes no network and returns a plain list: it
is exactly one external metric spec, with target type `AverageValue`, target
quantity the threshold in decimal format, and a metric name that is the same
for any two scalers. -/
theorem GetMetricSpecForScaling_spec (lib : Lib) (s s' : stockScaler) :
    GetMetricSpecForScaling lib s =
        [{ Type_ := lib.externalMetricType,
           External := some
             { Metric := { Name := lib.NormalizeString "stock" },
               Target := { Type_ := AverageValueMetricType,
                           AverageValue :=
                             some { value := s.metadata.threshold, format := .DecimalSI } } } }] ∧
      (GetMetricSpecForScaling lib s).length = 1 ∧
      (GetMetricSpecForScaling lib s).map (fun spec => spec.External.map fun ext => ext.Metric.Name)
        = (GetMetricSpecForScaling lib s').map
            (fun spec => spec.External.map fun ext => ext.Metric.Name) :=
  ⟨rfl, rfl, rfl⟩

/-- C8, evaluation of the code on an empty result: when the body decodes
without error to an empty list of records, or is the JSON value `null`,
`getStock` indexes the empty slice and `IsActive` panics; it returns neither a
boolean nor an error. -/
theorem IsActive_empty_records_panics (s : stockScaler) :
    IsActive (constNetwork (.unmarshalled [])) s
        = .panic "runtime error: index out of range [0] with length 0" ∧
      IsActive (constNetwork .unmarshalNull) s
        = .panic "runtime error: index out of range [0] with length 0" ∧
      (∀ r, IsActive (constNetwork (.unmarshalled [])) s ≠ .ret r) := by
  refine ⟨rfl, rfl, fun r h => ?_⟩
  have h' : IsActive (constNetwork (.unmarshalled [])) s
      = .panic "runtime error: index out of range [0] with length 0" := rfl
  rw [h'] at h
  simp at h

/-- C9: on a response with at least one record, `GetMetrics` returns one metric,
under the requested name, whose value is the comment count of the first record;
`GetMetricSpecForScaling` declares one `AverageValue` target; and `IsActive`
returns `(true, nil)` exactly when that value is strictly greater than that
target, so a count equal to the threshold is inactive. -/
theorem operations_agree (lib : Lib) (net : Network) (now : Nat) (s : stockScaler)
    (metricName : String) (d : stockData) (rest : List stockData)
    (h : net s.httpClient s.metadata.host = .unmarshalled (d :: rest)) :
    ∃ (value target : Quantity) (spec : MetricSpec) (ext : ExternalMetricSource),
      GetMetrics net now s metricName =
          .ret ([{ MetricName := metricName, Value := value, Timestamp := now }], none) ∧
        value = NewQuantity d.NumberComments Format.DecimalSI ∧
        GetMetricSpecForScaling lib s = [spec] ∧
        spec.External = some ext ∧
        ext.Target.Type_ = AverageValueMetricType ∧
        ext.Target.AverageValue = some target ∧
        IsActive net s = .ret (decide (value.value > target.value), none) ∧
        (IsActive net s = .ret (true, none) ↔ value.value > target.value) ∧
        (value.value = target.value → IsActive net s = .ret (false, none)) := by
  have hs := getStock_of_records net s d rest h
  have hact : IsActive net s
      = .ret (decide (d.NumberComments > s.metadata.threshold), none) := by
    simp [IsActive, hs]
  refine ⟨NewQuantity d.NumberComments Format.DecimalSI,
    NewQuantity s.metadata.threshold Format.DecimalSI, _, _, ?_, rfl, rfl, rfl, rfl, rfl,
    hact, ?_, ?_⟩
  · simp [GetMetrics, hs]
  · rw [hact]
    simp [NewQuantity]
  · intro heq
    rw [hact]
    simp only [NewQuantity] at heq
    simp [heq]

/-- C9 on an example: threshold 5 and a first record with 5 comments. -/
theorem operations_agree_witness :
    constNetwork (.unmarshalled [{ NumberComments := 5 }, { NumberComments := 9 }])
        (sampleScaler 5).httpClient (sampleScaler 5).metadata.host
      = .unmarshalled ({ NumberComments := 5 } :: [{ NumberComments := 9 }]) ∧
    ∃ (value target : Quantity) (spec : MetricSpec) (ext : ExternalMetricSource),
      GetMetrics (constNetwork (.unmarshalled [{ NumberComments := 5 }, { NumberComments := 9 }]))
          17 (sampleScaler 5) "stock" =
          .ret ([{ MetricName := "stock", Value := value, Timestamp := 17 }], none) ∧
        value = NewQuantity ({ NumberComments := 5 } : stockData).NumberComments Format.DecimalSI ∧
        GetMetricSpecForScaling goLib (sampleScaler 5) = [spec] ∧
        spec.External = some ext ∧
        ext.Target.Type_ = AverageValueMetricType ∧
        ext.Target.AverageValue = some target ∧
        IsActive (constNetwork (.unmarshalled [{ NumberComments := 5 }, { NumberComments := 9 }]))
          (sampleScaler 5) = .ret (decide (value.value > target.value), none) ∧
        (IsActive (constNetwork (.unmarshalled [{ NumberComments := 5 }, { NumberComments := 9 }]))
          (sampleScaler 5) = .ret (true, none) ↔ value.value > target.value) ∧
        (value.value = target.value →
          IsActive (constNetwork (.unmarshalled [{ NumberComments := 5 }, { NumberComments := 9 }]))
            (sampleScaler 5) = .ret (false, none)) :=
  ⟨rfl, operations_agree goLib _ 17 (sampleScaler 5) "stock" { NumberComments := 5 }
    [{ NumberComments := 9 }] rfl⟩

/-- C10, counterexample: the host is a valid request URI and `parseStockMetadata`
fails, because the threshold value `abc` is not an integer. -/
theorem parseStockMetadata_valid_host_fails :
    (configOf [("host", "http://example.com/stock"), ("threshold", "abc")]).TriggerMetadata
        "host" = some "http://example.com/stock" ∧
      goLib.ParseRequestURI "http://example.com/stock" = .ok () ∧
      parseStockMetadata goLib
          (configOf [("host", "http://example.com/stock"), ("threshold", "abc")])
        = .error ("threshold: error parsing threshold " ++
            "strconv.Atoi: parsing \"abc\": invalid syntax") :=
  ⟨rfl, rfl, rfl⟩

/-- C10, amended: with a host accepted by `url.ParseRequestURI`, and a threshold
that is absent, empty or accepted by `strconv.Atoi`, `parseStockMetadata`
succeeds and stores the host unchanged; the threshold is 0 when the key is
absent or its value empty, and the parsed integer, of any sign, otherwise; and
the result depends on no key other than `threshold` and `host`. -/
theorem parseStockMetadata_success (lib : Lib) (config : ScalerConfig) (host : String)
    (hh : config.TriggerMetadata "host" = some host)
    (hp : lib.ParseRequestURI host = .ok ()) :
    (config.TriggerMetadata "threshold" = none ∨ config.TriggerMetadata "threshold" = some "" →
        parseStockMetadata lib config = .ok { threshold := 0, host := host }) ∧
      (∀ val n, config.TriggerMetadata "threshold" = some val → val ≠ "" →
        lib.Atoi val = .ok n →
        parseStockMetadata lib config = .ok { threshold := n, host := host }) ∧
      (∀ config' : ScalerConfig,
        config'.TriggerMetadata "threshold" = config.TriggerMetadata "threshold" →
        config'.TriggerMetadata "host" = config.TriggerMetadata "host" →
        parseStockMetadata lib config' = parseStockMetadata lib config) := by
  refine ⟨?_, ?_, fun config' ht hh' => parseStockMetadata_congr lib config config' ht hh'⟩
  · rintro (ht | ht) <;> simp [parseStockMetadata, ht, hh, hp]
  · intro val n ht hne ha
    simp [parseStockMetadata, ht, hh, hp, hne, ha]

/-- C10, amended, on an example: a negative threshold and an extra key. -/
theorem parseStockMetadata_success_witness :
    (configOf [("threshold", "-3"), ("host", "http://example.com/stock")]).TriggerMetadata
        "host" = some "http://example.com/stock" ∧
      goLib.ParseRequestURI "http://example.com/stock" = .ok () ∧
      parseStockMetadata goLib (configOf [("threshold", "-3"), ("host", "http://example.com/stock")])
        = .ok { threshold := -3, host := "http://example.com/stock" } ∧
      parseStockMetadata goLib
          (configOf [("ticker", "GME"), ("threshold", "-3"), ("host", "http://example.com/stock")])
        = parseStockMetadata goLib
          (configOf [("threshold", "-3"), ("host", "http://example.com/stock")]) :=
  ⟨rfl, rfl,
    (parseStockMetadata_success goLib
      (configOf [("threshold", "-3"), ("host", "http://example.com/stock")])
      "http://example.com/stock" rfl rfl).2.1 "-3" (-3) rfl (by decide) rfl,
    (parseStockMetadata_success goLib
      (configOf [("threshold", "-3"), ("host", "http://example.com/stock")])
      "http://example.com/stock" rfl rfl).2.2
      (configOf [("ticker", "GME"), ("threshold", "-3"), ("host", "http://example.com/stock")])
      rfl rfl⟩

/-! ## Properties of the scale handler -/

/-- The rounded-up quotient is the ceiling of the rational quotient. -/
theorem divideWithCeil_eq_ceil (x y : Nat) (hy : 0 < y) :
    divideWithCeil x y = ⌈(x : ℚ) / (y : ℚ)⌉₊ := by
  have hyq : (0 : ℚ) < (y : ℚ) := by exact_mod_cast hy
  apply eq_of_forall_ge_iff
  intro n
  rw [Nat.ceil_le, div_le_iff₀ hyq]
  have h1 : ((x : ℚ) ≤ (n : ℚ) * (y : ℚ)) ↔ x ≤ n * y := by exact_mod_cast Iff.rfl
  rw [h1, divideWithCeil, ← Nat.lt_succ_iff, Nat.div_lt_iff_lt_mul hy, Nat.succ_mul]
  omega

/-- The contribution of a scaler with a positive target carries its `perScalerMax`. -/
theorem metricsOf_maxValue (s : JobScaler) (h : 0 < s.averageValue) :
    (metricsOf s).maxValue = perScalerMax s := by
  simp [metricsOf, perScalerMax, divideWithCeil_eq_ceil _ _ h]

/-- What `pickMax` selects: nothing from the empty list, otherwise a member that
no other member exceeds. -/
theorem pickMax_spec (l : List scalerMetrics) :
    (l = [] → pickMax l = none) ∧
      (l ≠ [] → ∃ m ∈ l, pickMax l = some m ∧ ∀ m' ∈ l, m'.maxValue ≤ m.maxValue) := by
  induction l with
  | nil => simp [pickMax]
  | cons a l ih =>
    refine ⟨fun h => by simp at h, fun _ => ?_⟩
    by_cases hl : l = []
    · subst hl
      exact ⟨a, by simp, by simp [pickMax], by simp⟩
    · obtain ⟨m, hm, hp, hmax⟩ := ih.2 hl
      by_cases hgt : m.maxValue > a.maxValue
      · refine ⟨m, List.mem_cons_of_mem _ hm, by simp [pickMax, hp, hgt], ?_⟩
        intro m' hm'
        rcases List.mem_cons.1 hm' with h | h
        · subst h; omega
        · exact hmax m' h
      · refine ⟨a, by simp, by simp [pickMax, hp, hgt], ?_⟩
        intro m' hm'
        rcases List.mem_cons.1 hm' with h | h
        · subst h; exact le_refl _
        · have := hmax m' h
          omega

/-- What `pickMin` selects: nothing from the empty list, otherwise a member that
exceeds no other member. -/
theorem pickMin_spec (l : List scalerMetrics) :
    (l = [] → pickMin l = none) ∧
      (l ≠ [] → ∃ m ∈ l, pickMin l = some m ∧ ∀ m' ∈ l, m.maxValue ≤ m'.maxValue) := by
  induction l with
  | nil => simp [pickMin]
  | cons a l ih =>
    refine ⟨fun h => by simp at h, fun _ => ?_⟩
    by_cases hl : l = []
    · subst hl
      exact ⟨a, by simp, by simp [pickMin], by simp⟩
    · obtain ⟨m, hm, hp, hmin⟩ := ih.2 hl
      by_cases hlt : m.maxValue < a.maxValue
      · refine ⟨m, List.mem_cons_of_mem _ hm, by simp [pickMin, hp, hlt], ?_⟩
        intro m' hm'
        rcases List.mem_cons.1 hm' with h | h
        · subst h; omega
        · exact hmin m' h
      · refine ⟨a, by simp, by simp [pickMin, hp, hlt], ?_⟩
        intro m' hm'
        rcases List.mem_cons.1 hm' with h | h
        · subst h; exact le_refl _
        · have := hmin m' h
          omega

/-- The loop of the continuous evaluator once the outcome is known: the state is
kept and every remaining scaler is closed without being probed. -/
theorem isScaledObjectActiveLoop_decided (scalers : List ProbedScaler) (isActive isError : Bool)
    (h : (isActive || isError) = true) :
    isScaledObjectActiveLoop scalers isActive isError =
      ((isActive, isError),
        scalers.map fun _ => { IsActive := 0, GetMetricSpecForScaling := 0, Close := 1 }) := by
  induction scalers with
  | nil => simp [isScaledObjectActiveLoop]
  | cons a l ih => simp [isScaledObjectActiveLoop, h, ih]

/-- C5: on metric specs that all carry an `averageValue` target,
`getTargetAverageValue` is 0 for the empty list and otherwise the floor of the
sum of the targets divided by the number of specs; the three examples of the
tests evaluate to 0, 1 and 4. -/
theorem getTargetAverageValue_floor_mean (specs : List MetricSpec) (values : List Int)
    (h : specs.map averageValueOf = values.map some) :
    (specs = [] → getTargetAverageValue specs = 0) ∧
      (specs ≠ [] →
        getTargetAverageValue specs = ⌊((values.sum : Int) : ℚ) / ((specs.length : Nat) : ℚ)⌋) ∧
      getTargetAverageValue [] = 0 ∧
      getTargetAverageValue [createMetricSpec 1, createMetricSpec 1] = 1 ∧
      getTargetAverageValue [createMetricSpec 5, createMetricSpec 5, createMetricSpec 3] = 4 := by
  have hvals : (specs.map fun spec => (averageValueOf spec).getD 0) = values := by
    have h2 := congrArg (List.map fun o : Option Int => o.getD 0) h
    simpa [List.map_map, Function.comp_def] using h2
  refine ⟨fun he => by subst he; rfl, fun hne => ?_, by decide, by decide, by decide⟩
  have hlen : (specs.length : Int) ≠ 0 := by
    have : specs.length ≠ 0 := fun h0 => hne (List.length_eq_zero.1 h0)
    exact_mod_cast this
  rw [Rat.floor_intCast_div_natCast]
  simp only [getTargetAverageValue, hvals]
  simp [hlen]

/-- C5 on an example: the specs with targets 5, 5 and 3. -/
theorem getTargetAverageValue_floor_mean_witness :
    [createMetricSpec 5, createMetricSpec 5, createMetricSpec 3].map averageValueOf
        = [5, 5, 3].map some ∧
      getTargetAverageValue [createMetricSpec 5, createMetricSpec 5, createMetricSpec 3]
        = ⌊(([5, 5, 3] : List Int).sum : ℚ) /
            (([createMetricSpec 5, createMetricSpec 5, createMetricSpec 3].length : Nat) : ℚ)⌋ :=
  ⟨rfl, (getTargetAverageValue_floor_mean
      [createMetricSpec 5, createMetricSpec 5, createMetricSpec 3] [5, 5, 3] rfl).2.1
      (by decide)⟩

/-- C6: the result of `isScaledObjectActive` is decided by the first scaler whose
probe is not `(false, nil)`: `(false, true)` if that probe returns an error,
`(true, false)` if it returns active, `(false, false)` if there is no such
scaler.  The scalers up to and including the deciding one are probed once, the
ones after it are not probed, and every scaler is closed exactly once.  The two
examples of the tests evaluate as stated. -/
theorem isScaledObjectActive_first_decides (scalers : List ProbedScaler) :
    (isScaledObjectActive scalers).1 =
        (match fromDeciding scalers with
          | [] => (false, false)
          | deciding :: _ =>
            match deciding.probe with
            | (_, some _) => (false, true)
            | (_, none) => (true, false)) ∧
      (isScaledObjectActive scalers).2.map (fun calls => calls.IsActive) =
        (scalers.takeWhile fun scaler => scaler.probe == (false, none)).map (fun _ => 1) ++
          (match fromDeciding scalers with
            | [] => []
            | _ :: later => 1 :: later.map fun _ => 0) ∧
      (isScaledObjectActive scalers).2.map (fun calls => calls.Close) =
        scalers.map (fun _ => 1) ∧
      isScaledObjectActive [{ probe := (false, some "Some error") }] =
        ((false, true), [{ IsActive := 1, GetMetricSpecForScaling := 0, Close := 1 }]) ∧
      isScaledObjectActive [{ probe := (true, none) }, { probe := (false, some "Some error") }] =
        ((true, false), [{ IsActive := 1, GetMetricSpecForScaling := 2, Close := 1 },
                         { IsActive := 0, GetMetricSpecForScaling := 0, Close := 1 }]) := by
  refine ⟨?_, ?_, ?_, by decide, by decide⟩
  · induction scalers with
    | nil => rfl
    | cons a l ih =>
      obtain ⟨⟨b, e⟩⟩ := a
      cases e with
      | some msg =>
        have hb : ((b, some msg) == ((false, none) : Bool × GoError)) = false := by
          cases b <;> rfl
        simp [hb, isScaledObjectActive, isScaledObjectActiveLoop, fromDeciding,
          isScaledObjectActiveLoop_decided, List.dropWhile]
      | none =>
        cases b with
        | true =>
          have hb : ((true, none) == ((false, none) : Bool × GoError)) = false := rfl
          simp [hb, isScaledObjectActive, isScaledObjectActiveLoop, fromDeciding,
            isScaledObjectActiveLoop_decided, List.dropWhile]
        | false =>
          simpa [isScaledObjectActive, isScaledObjectActiveLoop, fromDeciding,
            List.dropWhile] using ih
  · induction scalers with
    | nil => rfl
    | cons a l ih =>
      obtain ⟨⟨b, e⟩⟩ := a
      cases e with
      | some msg =>
        have hb : ((b, some msg) == ((false, none) : Bool × GoError)) = false := by
          cases b <;> rfl
        simp [hb, isScaledObjectActive, isScaledObjectActiveLoop, fromDeciding,
          isScaledObjectActiveLoop_decided, List.dropWhile, List.takeWhile, Function.comp_def]
      | none =>
        cases b with
        | true =>
          have hb : ((true, none) == ((false, none) : Bool × GoError)) = false := rfl
          simp [hb, isScaledObjectActive, isScaledObjectActiveLoop, fromDeciding,
            isScaledObjectActiveLoop_decided, List.dropWhile, List.takeWhile, Function.comp_def]
        | false =>
          simpa [isScaledObjectActive, isScaledObjectActiveLoop, fromDeciding,
            List.dropWhile, List.takeWhile] using ih
  · induction scalers with
    | nil => rfl
    | cons a l ih =>
      obtain ⟨⟨b, e⟩⟩ := a
      cases e with
      | some msg =>
        simp [isScaledObjectActive, isScaledObjectActiveLoop,
          isScaledObjectActiveLoop_decided, Function.comp_def]
      | none =>
        cases b with
        | true =>
          simp [isScaledObjectActive, isScaledObjectActiveLoop,
            isScaledObjectActiveLoop_decided, Function.comp_def]
        | false =>
          simpa [isScaledObjectActive, isScaledObjectActiveLoop] using ih

/-- The sums of the contributions of scalers with positive targets are the sums
of their `perScalerMax` values. -/
theorem sum_maxValue_eq (l : List JobScaler) (h : ∀ s ∈ l, 0 < s.averageValue) :
    ((l.map metricsOf).map fun m => m.maxValue).sum = (l.map perScalerMax).sum := by
  induction l with
  | nil => rfl
  | cons a l ih =>
    have ha := metricsOf_maxValue a (h a (by simp))
    have hl := ih fun s hs => h s (List.mem_cons_of_mem _ hs)
    simp only [List.map_cons, List.sum_cons, ha, hl]

/-- The queue lengths of the contributions are those of the scalers. -/
theorem sum_queueLength_eq (l : List JobScaler) :
    ((l.map metricsOf).map fun m => m.queueLength).sum
      = (l.map fun s => s.queueLength).sum := by
  induction l with
  | nil => rfl
  | cons a l ih => simp only [List.map_cons, List.sum_cons, ih, metricsOf]

/-- C4: for scalers with positive targets, none failing, `isScaledJobActive`
reports active iff some scaler is active; with no active scaler the result is
`(false, 0, 0)`; the target never exceeds the maximum replica count; and over
the active scalers, with `perScalerMax = ceil(queueLength / averageValue)`:
`max` (also when unset) returns the queue length and `perScalerMax` of a scaler
with the greatest `perScalerMax`, `min` those of one with the smallest, `sum`
the two sums, `average` the ceiling of the mean queue length and the
integer-division mean of the `perScalerMax` values, the target being capped in
every case.  The four runs of the test evaluate to `(true, 20, 20)`,
`(true, 5, 2)`, `(true, 12, 9)` and `(true, 35, 27)`. -/
theorem isScaledJobActive_aggregates (scalers : List JobScaler)
    (strategy : Option AggregationStrategy) (maxReplicaCount : Nat)
    (hpos : ∀ s ∈ scalers, 0 < s.averageValue) :
    ((isScaledJobActive scalers strategy maxReplicaCount).1 = true ↔
        ∃ s ∈ scalers, s.isActive = true) ∧
      (activeScalers scalers = [] →
        isScaledJobActive scalers strategy maxReplicaCount = (false, 0, 0)) ∧
      (isScaledJobActive scalers strategy maxReplicaCount).2.2 ≤ maxReplicaCount ∧
      (strategy = none ∨ strategy = some .max → activeScalers scalers ≠ [] →
        ∃ s ∈ activeScalers scalers,
          (∀ s' ∈ activeScalers scalers, perScalerMax s' ≤ perScalerMax s) ∧
          isScaledJobActive scalers strategy maxReplicaCount
            = (true, s.queueLength, min (perScalerMax s) maxReplicaCount)) ∧
      (strategy = some .min → activeScalers scalers ≠ [] →
        ∃ s ∈ activeScalers scalers,
          (∀ s' ∈ activeScalers scalers, perScalerMax s ≤ perScalerMax s') ∧
          isScaledJobActive scalers strategy maxReplicaCount
            = (true, s.queueLength, min (perScalerMax s) maxReplicaCount)) ∧
      (strategy = some .sum → activeScalers scalers ≠ [] →
        isScaledJobActive scalers strategy maxReplicaCount
          = (true, ((activeScalers scalers).map fun s => s.queueLength).sum,
              min ((activeScalers scalers).map perScalerMax).sum maxReplicaCount)) ∧
      (strategy = some .average → activeScalers scalers ≠ [] →
        isScaledJobActive scalers strategy maxReplicaCount
          = (true,
              ⌈((((activeScalers scalers).map fun s => s.queueLength).sum : Nat) : ℚ) /
                (((activeScalers scalers).length : Nat) : ℚ)⌉₊,
              min (((activeScalers scalers).map perScalerMax).sum /
                (activeScalers scalers).length) maxReplicaCount)) ∧
      isScaledJobActive testScalers none 100 = (true, 20, 20) ∧
      isScaledJobActive testScalers (some .max) 100 = (true, 20, 20) ∧
      isScaledJobActive testScalers (some .min) 100 = (true, 5, 2) ∧
      isScaledJobActive testScalers (some .average) 100 = (true, 12, 9) ∧
      isScaledJobActive testScalers (some .sum) 100 = (true, 35, 27) := by
  have hposA : ∀ s ∈ activeScalers scalers, 0 < s.averageValue := fun s hs =>
    hpos s (List.mem_of_mem_filter hs)
  have hmapne : activeScalers scalers ≠ [] → (activeScalers scalers).map metricsOf ≠ [] :=
    fun h h' => h (List.map_eq_nil_iff.1 h')
  have hempty : activeScalers scalers ≠ [] →
      (!((activeScalers scalers).map metricsOf).isEmpty) = true := by
    intro h
    cases hc : activeScalers scalers with
    | nil => exact absurd hc h
    | cons a l => rfl
  have hunfold : isScaledJobActive scalers strategy maxReplicaCount =
      ((!((activeScalers scalers).map metricsOf).isEmpty),
        (aggregateMetrics strategy ((activeScalers scalers).map metricsOf)).1,
        Nat.min (aggregateMetrics strategy ((activeScalers scalers).map metricsOf)).2
          maxReplicaCount) := rfl
  have hmaxcase : activeScalers scalers ≠ [] →
      ∃ s ∈ activeScalers scalers,
        (∀ s' ∈ activeScalers scalers, perScalerMax s' ≤ perScalerMax s) ∧
        pickMax ((activeScalers scalers).map metricsOf) = some (metricsOf s) := by
    intro hne
    obtain ⟨m, hm, hp, hall⟩ := (pickMax_spec _).2 (hmapne hne)
    obtain ⟨s, hs, rfl⟩ := List.mem_map.1 hm
    refine ⟨s, hs, fun s' hs' => ?_, hp⟩
    have := hall (metricsOf s') (List.mem_map_of_mem _ hs')
    rwa [metricsOf_maxValue s' (hposA s' hs'), metricsOf_maxValue s (hposA s hs)] at this
  have hmincase : activeScalers scalers ≠ [] →
      ∃ s ∈ activeScalers scalers,
        (∀ s' ∈ activeScalers scalers, perScalerMax s ≤ perScalerMax s') ∧
        pickMin ((activeScalers scalers).map metricsOf) = some (metricsOf s) := by
    intro hne
    obtain ⟨m, hm, hp, hall⟩ := (pickMin_spec _).2 (hmapne hne)
    obtain ⟨s, hs, rfl⟩ := List.mem_map.1 hm
    refine ⟨s, hs, fun s' hs' => ?_, hp⟩
    have := hall (metricsOf s') (List.mem_map_of_mem _ hs')
    rwa [metricsOf_maxValue s' (hposA s' hs'), metricsOf_maxValue s (hposA s hs)] at this
  refine ⟨?_, ?_, ?_, ?_, ?_, ?_, ?_, by decide, by decide, by decide, by decide, by decide⟩
  · rw [hunfold]
    constructor
    · intro h
      by_cases hne : activeScalers scalers = []
      · simp [hne] at h
      · obtain ⟨s, hs⟩ := List.exists_mem_of_ne_nil _ hne
        exact ⟨s, List.mem_of_mem_filter hs, by simpa using (List.mem_filter.1 hs).2⟩
    · rintro ⟨s, hs, hact⟩
      have hmem : s ∈ activeScalers scalers := List.mem_filter.2 ⟨hs, by simpa using hact⟩
      exact hempty (List.ne_nil_of_mem hmem)
  · intro hnil
    rw [hunfold, hnil]
    cases strategy with
    | none => simp [aggregateMetrics, pickMax]
    | some st => cases st <;> simp [aggregateMetrics, pickMax, pickMin]
  · rw [hunfold]
    exact Nat.min_le_right _ _
  · intro hst hne
    obtain ⟨s, hs, hall, hp⟩ := hmaxcase hne
    refine ⟨s, hs, hall, ?_⟩
    have hg : strategy.getD AggregationStrategy.max = AggregationStrategy.max := by
      rcases hst with h | h <;> simp [h]
    rw [hunfold, hempty hne]
    simp only [aggregateMetrics, hg, hp, metricsOf_maxValue s (hposA s hs)]
    rfl
  · intro hst hne
    obtain ⟨s, hs, hall, hp⟩ := hmincase hne
    refine ⟨s, hs, hall, ?_⟩
    have hg : strategy.getD AggregationStrategy.max = AggregationStrategy.min := by simp [hst]
    rw [hunfold, hempty hne]
    simp only [aggregateMetrics, hg, hp, metricsOf_maxValue s (hposA s hs)]
    rfl
  · intro hst hne
    have hg : strategy.getD AggregationStrategy.max = AggregationStrategy.sum := by simp [hst]
    rw [hunfold, hempty hne]
    simp only [aggregateMetrics, hg, sum_maxValue_eq _ hposA, sum_queueLength_eq]
  · intro hst hne
    have hg : strategy.getD AggregationStrategy.max = AggregationStrategy.average := by
      simp [hst]
    have hlen : 0 < (activeScalers scalers).length := List.length_pos.2 hne
    have hlen' : ((activeScalers scalers).map metricsOf).length ≠ 0 := by
      simp only [List.length_map]; omega
    rw [hunfold, hempty hne]
    have hlen2 : ¬ (activeScalers scalers).length = 0 := by omega
    simp only [aggregateMetrics, hg, sum_maxValue_eq _ hposA,
      sum_queueLength_eq, List.length_map, divideWithCeil_eq_ceil _ _ hlen, ne_eq, hlen2,
      not_false_eq_true, if_true]

/-- C4 on the scalers of the test under the `average` strategy. -/
theorem isScaledJobActive_aggregates_witness :
    (∀ s ∈ testScalers, 0 < s.averageValue) ∧
      (isScaledJobActive testScalers (some .average) 100).2.2 ≤ 100 ∧
      ((isScaledJobActive testScalers (some .average) 100).1 = true ↔
        ∃ s ∈ testScalers, s.isActive = true) :=
  ⟨by decide,
    (isScaledJobActive_aggregates testScalers (some .average) 100 (by decide)).2.2.1,
    (isScaledJobActive_aggregates testScalers (some .average) 100 (by decide)).1⟩

end Keda
